import Mathlib

/-!
# POSIX filesystem backend of SDL (`src/filesystem/posix/SDL_sysfsops.c`)

A shallow embedding of the five backend operations

* `SDL_SYS_FSenumerate`
* `SDL_SYS_FSremove`
* `SDL_SYS_FSrename`
* `SDL_SYS_FSmkdir`
* `SDL_SYS_FSstat`

The operating system is a parameter: a record `Native σ` of the libc calls the
file uses, each a function on an abstract system state `σ` that also carries
`errno`.  The process state `Proc σ` adds SDL's last-error text.  Every
operation is a function `Proc σ → Int × Proc σ` following the C control flow
statement by statement.
-/

set_option autoImplicit false

namespace SDLFsops

/-! ## Constants of the C library headers -/

/-- Value of `ENOENT` in `<errno.h>` (Linux and the BSDs agree on it). -/
def ENOENT : Int := 2

/-- Value of `EEXIST` in `<errno.h>`. -/
def EEXIST : Int := 17

/-- File-type mask `S_IFMT` of `<sys/stat.h>` (octal 0170000). -/
def S_IFMT : Nat := 0o170000

/-- File-type code `S_IFREG` of `<sys/stat.h>` (octal 0100000). -/
def S_IFREG : Nat := 0o100000

/-- File-type code `S_IFDIR` of `<sys/stat.h>` (octal 0040000). -/
def S_IFDIR : Nat := 0o040000

/-- The macro `S_ISREG(m)`, that is `((m) & S_IFMT) == S_IFREG`. -/
def S_ISREG (m : Nat) : Bool := (m &&& S_IFMT) == S_IFREG

/-- The macro `S_ISDIR(m)`, that is `((m) & S_IFMT) == S_IFDIR`. -/
def S_ISDIR (m : Nat) : Bool := (m &&& S_IFMT) == S_IFDIR

/-- The C conversion `(Uint64) x` of a signed integer: reduction modulo `2^64`. -/
def toUint64 (x : Int) : Nat := (x % (2 : Int) ^ 64).toNat

/-- The C conversion `(Sint64) x`: the representative of `x` modulo `2^64`
in the range `-2^63 .. 2^63 - 1`. -/
def toSint64 (x : Int) : Int := (x + (2 : Int) ^ 63) % (2 : Int) ^ 64 - (2 : Int) ^ 63

/-! ## Data model -/

/-- The fields of `struct stat` that the backend reads.  `st_mode` is the
unsigned mode word, `st_size` the signed `off_t` size and the three times are
`time_t` seconds. -/
structure StatBuf where
  st_mode : Nat
  st_size : Int
  st_ctime : Int
  st_mtime : Int
  st_atime : Int
  deriving DecidableEq

/-- The C types of the `struct stat` fields: a 32-bit `mode_t`, a signed 64-bit
`off_t` and a signed `time_t` of at most 64 bits. -/
def StatBuf.WellTyped (sb : StatBuf) : Prop :=
  sb.st_mode < 2 ^ 32 ∧
  (-(2 : Int) ^ 63 ≤ sb.st_size ∧ sb.st_size < (2 : Int) ^ 63) ∧
  (-(2 : Int) ^ 63 ≤ sb.st_ctime ∧ sb.st_ctime < (2 : Int) ^ 63) ∧
  (-(2 : Int) ^ 63 ≤ sb.st_mtime ∧ sb.st_mtime < (2 : Int) ^ 63) ∧
  (-(2 : Int) ^ 63 ≤ sb.st_atime ∧ sb.st_atime < (2 : Int) ^ 63)

/-- Modelled from the spec: the enumeration `SDL_PathType` of the public header,
which lies outside `SDL_sysfsops.c`; the spec lists the tags FILE,
DIRECTORY and OTHER. -/
inductive SDL_PathType where
  | SDL_PATHTYPE_FILE
  | SDL_PATHTYPE_DIRECTORY
  | SDL_PATHTYPE_OTHER
  deriving DecidableEq

open SDL_PathType

/-- Modelled from the spec: the record `SDL_PathInfo` of the public header: a
type tag, an unsigned 64-bit size and three signed 64-bit times. -/
structure SDL_PathInfo where
  type : SDL_PathType
  size : Nat
  create_time : Int
  modify_time : Int
  access_time : Int
  deriving DecidableEq

/-- The libc calls used by the backend, as functions on a system state `σ`.
A call returns its C result together with the next state; `errno` reads the
thread's error number out of a state.  `stat` returns the buffer it wrote (its
content is meaningful only when the result is `0`).  `opendir` returns the
stream as the list of names that `readdir` yields before it returns `NULL`.
`allocates n s` tells whether a heap request of `n` bytes is granted. -/
structure Native (σ : Type) where
  errno : σ → Int
  strerror : Int → String
  remove : String → σ → Int × σ
  rename : String → String → σ → Int × σ
  mkdir : String → Nat → σ → Int × σ
  stat : String → σ → Int × StatBuf × σ
  opendir : String → σ → Option (List String) × σ
  closedir : σ → σ
  allocates : Nat → σ → Bool

/-- Process state: the system state and SDL's last-error text. -/
structure Proc (σ : Type) where
  os : σ
  error : String

/-- Modelled from the spec: `SDL_SetError` (SDL's error module, outside
`SDL_sysfsops.c`) overwrites the last-error text with the formatted message and
returns `-1`. -/
def SDL_SetError {σ : Type} (msg : String) (w : Proc σ) : Int × Proc σ :=
  (-1, { w with error := msg })

/-! ## `SDL_SYS_FSstat` -/

/-- `SDL_SYS_FSstat(fullpath, info)`: the result code, the content of `*info`
after the call (given its content `info` before) and the next process state. -/
def SDL_SYS_FSstat {σ : Type} (sys : Native σ) (fullpath : String) (info : SDL_PathInfo)
    (w : Proc σ) : Int × SDL_PathInfo × Proc σ :=
  let r := sys.stat fullpath w.os
  let rc := r.1
  let statbuf := r.2.1
  let w1 : Proc σ := { w with os := r.2.2 }
  if rc < 0 then
    let e := SDL_SetError ("Can't stat: " ++ sys.strerror (sys.errno w1.os)) w1
    (e.1, info, e.2)
  else
    let info1 : SDL_PathInfo :=
      if S_ISREG statbuf.st_mode then
        { info with type := SDL_PATHTYPE_FILE, size := toUint64 statbuf.st_size }
      else if S_ISDIR statbuf.st_mode then
        { info with type := SDL_PATHTYPE_DIRECTORY, size := 0 }
      else
        { info with type := SDL_PATHTYPE_OTHER, size := toUint64 statbuf.st_size }
    (0, { info1 with
            create_time := toSint64 statbuf.st_ctime,
            modify_time := toSint64 statbuf.st_mtime,
            access_time := toSint64 statbuf.st_atime }, w1)

/-! ## Helpers from SDL's C runtime -/

/-- Modelled from the spec: the character-by-character comparison behind
`SDL_strcmp` (SDL's string module, outside `SDL_sysfsops.c`): `0` when both
texts end together, otherwise the sign of the first difference. -/
def strcmpChars : List Char → List Char → Int
  | [], [] => 0
  | [], _ :: _ => -1
  | _ :: _, [] => 1
  | a :: as, b :: bs =>
    if a = b then strcmpChars as bs else if a.toNat < b.toNat then -1 else 1

/-- Modelled from the spec: `SDL_strcmp` (SDL's string module, outside
`SDL_sysfsops.c`) compares two strings and returns `0` exactly when they are
equal, a negative or positive number otherwise. -/
def SDL_strcmp (a b : String) : Int :=
  strcmpChars a.data b.data

/-- Modelled from the spec: `SDL_strrchr` (SDL's string module, outside
`SDL_sysfsops.c`) finds the last occurrence of a character; the result is its
position in the text, `none` standing for `NULL`. -/
def SDL_strrchr : List Char → Char → Option Nat
  | [], _ => none
  | x :: xs, c =>
    match SDL_strrchr xs c with
    | some i => some (i + 1)
    | none => if x = c then some 0 else none

/-- Modelled from the spec: `SDL_strdup` (SDL's string module, outside
`SDL_sysfsops.c`) returns a heap copy of the text, or `NULL` (`none`) when the
request for its bytes and the terminator is not granted. -/
def SDL_strdup {σ : Type} (sys : Native σ) (str : String) (s : σ) : Option String :=
  if sys.allocates (str.utf8ByteSize + 1) s then some str else none

/-- Lines 69-75 of `SDL_SYS_FSremove`: the path handed to `stat` for the parent
check.  `ptr = SDL_strrchr(parent, '/')`; when `ptr` is not `NULL` the copy is
cut at `ptr` (`*ptr = 0`) and the cut copy is used, otherwise `"."`. -/
def parentPath (parent : String) : String :=
  match SDL_strrchr parent.data '/' with
  | some i => String.mk (parent.data.take i)
  | none => "."

/-! ## `SDL_SYS_FSremove`, `SDL_SYS_FSrename`, `SDL_SYS_FSmkdir` -/

/-- `SDL_SYS_FSremove(fullpath)`. -/
def SDL_SYS_FSremove {σ : Type} (sys : Native σ) (fullpath : String) (w : Proc σ) :
    Int × Proc σ :=
  let r := sys.remove fullpath w.os
  let rc := r.1
  let w1 : Proc σ := { w with os := r.2 }
  if rc < 0 then
    let origerrno := sys.errno w1.os
    if origerrno = ENOENT then
      match SDL_strdup sys fullpath w1.os with
      | none => (-1, w1)
      | some parent =>
        let q := sys.stat (parentPath parent) w1.os
        let w2 : Proc σ := { w1 with os := q.2.2 }
        if q.1 = 0 then
          (0, w2)
        else
          SDL_SetError ("Can't remove path: " ++ sys.strerror origerrno) w2
    else
      SDL_SetError ("Can't remove path: " ++ sys.strerror origerrno) w1
  else
    (0, w1)

/-- `SDL_SYS_FSrename(oldfullpath, newfullpath)`. -/
def SDL_SYS_FSrename {σ : Type} (sys : Native σ) (oldfullpath newfullpath : String)
    (w : Proc σ) : Int × Proc σ :=
  let r := sys.rename oldfullpath newfullpath w.os
  let w1 : Proc σ := { w with os := r.2 }
  if r.1 < 0 then
    SDL_SetError ("Can't remove path: " ++ sys.strerror (sys.errno w1.os)) w1
  else
    (0, w1)

/-- `SDL_SYS_FSmkdir(fullpath)`.  The re-stat of line 101 is made only when
`errno` is `EEXIST`, and `S_ISDIR` is read only when that `stat` returned `0`. -/
def SDL_SYS_FSmkdir {σ : Type} (sys : Native σ) (fullpath : String) (w : Proc σ) :
    Int × Proc σ :=
  let r := sys.mkdir fullpath 0o770 w.os
  let rc := r.1
  let w1 : Proc σ := { w with os := r.2 }
  if rc < 0 then
    let origerrno := sys.errno w1.os
    if origerrno = EEXIST then
      let q := sys.stat fullpath w1.os
      let w2 : Proc σ := { w1 with os := q.2.2 }
      if q.1 = 0 ∧ S_ISDIR q.2.1.st_mode = true then
        (0, w2)
      else
        SDL_SetError ("Can't create directory: " ++ sys.strerror origerrno) w2
    else
      SDL_SetError ("Can't create directory: " ++ sys.strerror origerrno) w1
  else
    (0, w1)

/-! ## `SDL_SYS_FSenumerate` -/

/-- One call of the enumeration callback: the three arguments it received and
the value it returned. -/
structure Invocation (υ : Type) where
  userdata : υ
  dirname : String
  name : String
  result : Int
  deriving DecidableEq

/-- The callback type `SDL_EnumerateDirectoryCallback`: a function of the user
data, the directory name and the entry name.  Whatever the callback reads and
writes is the state `κ`. -/
abbrev Callback (υ κ : Type) := υ → String → String → κ → Int × κ

/-- The loop of lines 44-51.  The first argument is what the stream still
yields, then `retval`, the callback's state and the calls made so far.  An
exhausted stream is `readdir` returning `NULL`; with `retval` other than `1`
the loop ends without reading the stream. -/
def enumLoop {υ κ : Type} (cb : Callback υ κ) (userdata : υ) (dirname : String) :
    List String → Int → κ → List (Invocation υ) → Int × κ × List (Invocation υ)
  | [], retval, k, log => (retval, k, log)
  | name :: rest, retval, k, log =>
    if retval = 1 then
      if SDL_strcmp name "." = 0 ∨ SDL_strcmp name ".." = 0 then
        enumLoop cb userdata dirname rest retval k log
      else
        let r := cb userdata dirname name k
        enumLoop cb userdata dirname rest r.1 r.2
          (log ++ [{ userdata := userdata, dirname := dirname, name := name, result := r.1 }])
    else
      (retval, k, log)

/-- `SDL_SYS_FSenumerate(fullpath, dirname, cb, userdata)`: the return value,
the next process state, the callback's state and the calls made, in order. -/
def SDL_SYS_FSenumerate {σ υ κ : Type} (sys : Native σ) (fullpath dirname : String)
    (cb : Callback υ κ) (userdata : υ) (w : Proc σ) (k : κ) :
    Int × Proc σ × κ × List (Invocation υ) :=
  let retval : Int := 1
  let o := sys.opendir fullpath w.os
  let w1 : Proc σ := { w with os := o.2 }
  match o.1 with
  | none =>
    let e := SDL_SetError ("Can't open directory: " ++ sys.strerror (sys.errno w1.os)) w1
    (e.1, e.2, k, [])
  | some dir =>
    let l := enumLoop cb userdata dirname dir retval k []
    (l.1, { w1 with os := sys.closedir w1.os }, l.2.1, l.2.2)

/-- The record of the call the loop makes for entry `name` in callback state
`k`. -/
def invocationOf {υ κ : Type} (cb : Callback υ κ) (userdata : υ) (dirname name : String)
    (k : κ) : Invocation υ :=
  { userdata := userdata, dirname := dirname, name := name,
    result := (cb userdata dirname name k).1 }

/-- The entries that are neither `"."` nor `".."`, in stream order. -/
def realEntries (dir : List String) : List String :=
  dir.filter (fun name => decide (name ≠ "." ∧ name ≠ ".."))

/-! ## Assumptions on the file system used by the idempotence statements -/

/-- In state `s` the path `p` is a directory: `stat` returns `0` and the mode it
reports passes `S_ISDIR`. -/
def IsDirectoryAt {σ : Type} (sys : Native σ) (p : String) (s : σ) : Prop :=
  (sys.stat p s).1 = 0 ∧ S_ISDIR (sys.stat p s).2.1.st_mode = true

instance instDecidableIsDirectoryAt {σ : Type} (sys : Native σ) (p : String) (s : σ) :
    Decidable (IsDirectoryAt sys p s) :=
  inferInstanceAs (Decidable (_ ∧ _))

/-- What the idempotence of directory creation asks of the file system, for one
path `p`: a `mkdir` that succeeds leaves a directory at `p`; a directory at `p`
survives `stat` and `mkdir` of `p`; and `mkdir` over a directory at `p` fails
with no other error than `EEXIST`. -/
structure DirectoryLaws {σ : Type} (sys : Native σ) (p : String) : Prop where
  created : ∀ s, 0 ≤ (sys.mkdir p 0o770 s).1 → IsDirectoryAt sys p (sys.mkdir p 0o770 s).2
  keptByStat : ∀ s, IsDirectoryAt sys p s → IsDirectoryAt sys p (sys.stat p s).2.2
  keptByMkdir : ∀ s, IsDirectoryAt sys p s → IsDirectoryAt sys p (sys.mkdir p 0o770 s).2
  existsError : ∀ s, IsDirectoryAt sys p s → (sys.mkdir p 0o770 s).1 < 0 →
    sys.errno (sys.mkdir p 0o770 s).2 = EEXIST

/-! ## Two concrete systems, used to exhibit executions -/

/-- Error texts of a few error numbers, as `strerror` gives them on Linux. -/
def strerrorText (e : Int) : String :=
  if e = 2 then "No such file or directory"
  else if e = 13 then "Permission denied"
  else if e = 17 then "File exists"
  else if e = 18 then "Invalid cross-device link"
  else if e = 20 then "Not a directory"
  else "Unknown error"

/-- A system in which every call fails.  The state is `errno`; each call sets
it to the error number given for that call. -/
def failing (eRemove eRename eMkdir eStat eOpendir : Int) : Native Int where
  errno := fun s => s
  strerror := strerrorText
  remove := fun _ _ => (-1, eRemove)
  rename := fun _ _ _ => (-1, eRename)
  mkdir := fun _ _ _ => (-1, eMkdir)
  stat := fun _ _ => (-1, ⟨0, 0, 0, 0, 0⟩, eStat)
  opendir := fun _ _ => (none, eOpendir)
  closedir := fun s => s
  allocates := fun _ _ => true

/-- A table-driven file system: the existing paths with their `stat` records,
the current `errno`, and whether the heap grants requests. -/
structure MiniFS where
  nodes : List (String × StatBuf)
  err : Int
  heap : Bool
  deriving DecidableEq

/-- The record `stat` reports for a directory just made with the given mode. -/
def newDirectory (mode : Nat) : StatBuf :=
  ⟨S_IFDIR ||| mode, 4096, 0, 0, 0⟩

/-- The native calls over `MiniFS`.  A path exists when the table lists it (the
empty path is never listed, so `stat("")` fails with `ENOENT` as POSIX asks).
`opendir` yields `"."`, `".."` and then the names listed under the directory. -/
def MiniFS.native : Native MiniFS where
  errno := fun s => s.err
  strerror := strerrorText
  remove := fun p s =>
    match s.nodes.lookup p with
    | some _ => (0, { s with nodes := s.nodes.filter (fun e => e.1 != p) })
    | none => (-1, { s with err := ENOENT })
  rename := fun a b s =>
    match s.nodes.lookup a with
    | some sb => (0, { s with nodes := (b, sb) :: s.nodes.filter (fun e => e.1 != a && e.1 != b) })
    | none => (-1, { s with err := ENOENT })
  mkdir := fun p mode s =>
    match s.nodes.lookup p with
    | some _ => (-1, { s with err := EEXIST })
    | none => (0, { s with nodes := (p, newDirectory mode) :: s.nodes })
  stat := fun p s =>
    match s.nodes.lookup p with
    | some sb => (0, sb, s)
    | none => (-1, ⟨0, 0, 0, 0, 0⟩, { s with err := ENOENT })
  opendir := fun p s =>
    match s.nodes.lookup p with
    | some sb =>
      if S_ISDIR sb.st_mode then
        (some ("." :: ".." :: s.nodes.filterMap (fun e =>
          if e.1.data.take (p.data.length + 1) = p.data ++ ['/'] then
            some (String.mk (e.1.data.drop (p.data.length + 1)))
          else none)), s)
      else (none, { s with err := 20 })
    | none => (none, { s with err := ENOENT })
  closedir := fun s => s
  allocates := fun _ s => s.heap

/-- A file system holding the root directory, the working directory, `/tmp`
and the plain file `/tmp/f`; nothing else. -/
def sampleFS : MiniFS :=
  { nodes := [("/", ⟨S_IFDIR ||| 0o755, 4096, 10, 20, 30⟩),
              (".", ⟨S_IFDIR ||| 0o755, 4096, 10, 20, 30⟩),
              ("/tmp", ⟨S_IFDIR ||| 0o777, 4096, 11, 21, 31⟩),
              ("/tmp/f", ⟨S_IFREG ||| 0o644, 5, 12, 22, 32⟩)],
    err := 0,
    heap := true }

/-- A system whose `opendir` succeeds on every path with the given stream of
names; its other calls fail with `EACCES`. -/
def streaming (names : List String) : Native Int :=
  { failing 13 13 13 13 13 with opendir := fun _ s => (some names, s) }

/-- A callback that always returns `1` and counts its calls. -/
def countCallback : Callback Unit Nat :=
  fun _ _ _ k => (1, k + 1)

/-- Some earlier content of the caller's `SDL_PathInfo`, before a call writes
to it. -/
def staleInfo : SDL_PathInfo :=
  ⟨SDL_PathType.SDL_PATHTYPE_OTHER, 7, 1, 2, 3⟩

/-- A callback that returns what its user data says and counts its calls. -/
def constCallback : Callback Int Nat :=
  fun userdata _ _ k => (userdata, k + 1)

/-- A callback that returns `1` until it is handed the entry named by its user
data, where it returns `0`; it counts its calls. -/
def findCallback : Callback String Nat :=
  fun userdata _ name k => (if name = userdata then 0 else 1, k + 1)

end SDLFsops

/-! # Theorems -/

namespace SDLFsops

open SDL_PathType

/-! ## Auxiliary facts -/

theorem S_ISREG_excludes_S_ISDIR (m : Nat) (h : S_ISREG m = true) : S_ISDIR m = false := by
  unfold S_ISREG at h
  unfold S_ISDIR
  have h1 : (m &&& S_IFMT) = S_IFREG := by simpa using h
  rw [h1]
  decide

theorem toSint64_of_range (x : Int) (hlo : -(2 : Int) ^ 63 ≤ x) (hhi : x < (2 : Int) ^ 63) :
    toSint64 x = x := by
  unfold toSint64
  have h0 : (0 : Int) ≤ x + (2 : Int) ^ 63 := by linarith
  have h1 : x + (2 : Int) ^ 63 < (2 : Int) ^ 64 := by
    have : (2 : Int) ^ 64 = (2 : Int) ^ 63 + (2 : Int) ^ 63 := by norm_num
    linarith
  rw [Int.emod_eq_of_lt h0 h1]
  ring

theorem SDL_SetError_fst {σ : Type} (msg : String) (w : Proc σ) :
    (SDL_SetError msg w).1 = -1 := rfl

theorem SDL_SetError_error {σ : Type} (msg : String) (w : Proc σ) :
    (SDL_SetError msg w).2.error = msg := rfl

theorem SDL_SetError_os {σ : Type} (msg : String) (w : Proc σ) :
    (SDL_SetError msg w).2.os = w.os := rfl

/-- What `SDL_SYS_FSstat` does when the native `stat` does not fail. -/
theorem SDL_SYS_FSstat_of_success {σ : Type} (sys : Native σ) (p : String)
    (info : SDL_PathInfo) (w : Proc σ) (h : ¬ (sys.stat p w.os).1 < 0) :
    SDL_SYS_FSstat sys p info w =
      (0,
       { type := if S_ISREG (sys.stat p w.os).2.1.st_mode then SDL_PATHTYPE_FILE
                 else if S_ISDIR (sys.stat p w.os).2.1.st_mode then SDL_PATHTYPE_DIRECTORY
                 else SDL_PATHTYPE_OTHER,
         size := if S_ISREG (sys.stat p w.os).2.1.st_mode then
                   toUint64 (sys.stat p w.os).2.1.st_size
                 else if S_ISDIR (sys.stat p w.os).2.1.st_mode then 0
                 else toUint64 (sys.stat p w.os).2.1.st_size,
         create_time := toSint64 (sys.stat p w.os).2.1.st_ctime,
         modify_time := toSint64 (sys.stat p w.os).2.1.st_mtime,
         access_time := toSint64 (sys.stat p w.os).2.1.st_atime },
       { w with os := (sys.stat p w.os).2.2 }) := by
  unfold SDL_SYS_FSstat
  simp only [h, if_false]
  by_cases hreg : S_ISREG (sys.stat p w.os).2.1.st_mode = true
  · simp [hreg]
  · by_cases hdir : S_ISDIR (sys.stat p w.os).2.1.st_mode = true
    · simp [hreg, hdir]
    · simp [hreg, hdir]

/-- What `SDL_SYS_FSstat` does when the native `stat` fails. -/
theorem SDL_SYS_FSstat_of_failure {σ : Type} (sys : Native σ) (p : String)
    (info : SDL_PathInfo) (w : Proc σ) (h : (sys.stat p w.os).1 < 0) :
    SDL_SYS_FSstat sys p info w =
      (-1, info,
       { os := (sys.stat p w.os).2.2,
         error := "Can't stat: " ++ sys.strerror (sys.errno (sys.stat p w.os).2.2) }) := by
  unfold SDL_SYS_FSstat
  simp [h, SDL_SetError]

/-! ## Stat -/

/-- C5. Stat invariant: whenever `SDL_SYS_FSstat` returns `0` and the record it
leaves in `*info` has type DIRECTORY, the size in that record is `0`, whatever
mode word and whatever size (positive, zero or negative) the native `stat`
reported. -/
theorem stat_directory_size_zero {σ : Type} (sys : Native σ) (p : String)
    (info : SDL_PathInfo) (w : Proc σ)
    (hok : (SDL_SYS_FSstat sys p info w).1 = 0)
    (hdir : (SDL_SYS_FSstat sys p info w).2.1.type = SDL_PATHTYPE_DIRECTORY) :
    (SDL_SYS_FSstat sys p info w).2.1.size = 0 := by
  by_cases h : (sys.stat p w.os).1 < 0
  · rw [SDL_SYS_FSstat_of_failure sys p info w h] at hok
    simp at hok
  · rw [SDL_SYS_FSstat_of_success sys p info w h] at hdir ⊢
    by_cases hreg : S_ISREG (sys.stat p w.os).2.1.st_mode = true
    · simp [hreg] at hdir
    · by_cases hd : S_ISDIR (sys.stat p w.os).2.1.st_mode = true
      · simp [hreg, hd]
      · simp [hreg, hd] at hdir

/-- Witness for C5: `/tmp` of the sample file system is a directory whose
native size is 4096; the record written for it has type DIRECTORY and size 0. -/
theorem stat_directory_size_zero_witness :
    (SDL_SYS_FSstat MiniFS.native "/tmp" ⟨SDL_PATHTYPE_OTHER, 7, 0, 0, 0⟩ ⟨sampleFS, ""⟩).1 = 0 ∧
    (SDL_SYS_FSstat MiniFS.native "/tmp" ⟨SDL_PATHTYPE_OTHER, 7, 0, 0, 0⟩
      ⟨sampleFS, ""⟩).2.1.type = SDL_PATHTYPE_DIRECTORY ∧
    (MiniFS.native.stat "/tmp" sampleFS).2.1.st_size = 4096 ∧
    (SDL_SYS_FSstat MiniFS.native "/tmp" ⟨SDL_PATHTYPE_OTHER, 7, 0, 0, 0⟩
      ⟨sampleFS, ""⟩).2.1.size = 0 :=
  ⟨by decide, by decide, by decide,
   stat_directory_size_zero MiniFS.native "/tmp" ⟨SDL_PATHTYPE_OTHER, 7, 0, 0, 0⟩ ⟨sampleFS, ""⟩
     (by decide) (by decide)⟩

/-- C6. Stat classification and pass-through: when the native `stat` succeeds
(its result is not negative) and its buffer has the C types of `struct stat`,
`SDL_SYS_FSstat` returns `0`; the type written is FILE exactly when the mode
passes `S_ISREG`, DIRECTORY exactly when it passes `S_ISDIR`, OTHER exactly when
it passes neither; for FILE and OTHER the size is `st_size` modulo `2^64`; and
the three times are `st_ctime`, `st_mtime` and `st_atime` unchanged. -/
theorem stat_classification_and_passthrough {σ : Type} (sys : Native σ) (p : String)
    (info : SDL_PathInfo) (w : Proc σ)
    (hok : 0 ≤ (sys.stat p w.os).1)
    (hty : (sys.stat p w.os).2.1.WellTyped) :
    (SDL_SYS_FSstat sys p info w).1 = 0 ∧
    ((SDL_SYS_FSstat sys p info w).2.1.type = SDL_PATHTYPE_FILE ↔
      S_ISREG (sys.stat p w.os).2.1.st_mode = true) ∧
    ((SDL_SYS_FSstat sys p info w).2.1.type = SDL_PATHTYPE_DIRECTORY ↔
      S_ISDIR (sys.stat p w.os).2.1.st_mode = true) ∧
    ((SDL_SYS_FSstat sys p info w).2.1.type = SDL_PATHTYPE_OTHER ↔
      (S_ISREG (sys.stat p w.os).2.1.st_mode = false ∧
       S_ISDIR (sys.stat p w.os).2.1.st_mode = false)) ∧
    ((SDL_SYS_FSstat sys p info w).2.1.type ≠ SDL_PATHTYPE_DIRECTORY →
      ((SDL_SYS_FSstat sys p info w).2.1.size : Int) =
        (sys.stat p w.os).2.1.st_size % (2 : Int) ^ 64) ∧
    (SDL_SYS_FSstat sys p info w).2.1.create_time = (sys.stat p w.os).2.1.st_ctime ∧
    (SDL_SYS_FSstat sys p info w).2.1.modify_time = (sys.stat p w.os).2.1.st_mtime ∧
    (SDL_SYS_FSstat sys p info w).2.1.access_time = (sys.stat p w.os).2.1.st_atime := by
  have h : ¬ (sys.stat p w.os).1 < 0 := not_lt.mpr hok
  obtain ⟨_, _, ⟨hc1, hc2⟩, ⟨hm1, hm2⟩, ⟨ha1, ha2⟩⟩ := hty
  rw [SDL_SYS_FSstat_of_success sys p info w h]
  have hsz : ((toUint64 (sys.stat p w.os).2.1.st_size : Nat) : Int) =
      (sys.stat p w.os).2.1.st_size % (2 : Int) ^ 64 := by
    unfold toUint64
    exact Int.toNat_of_nonneg (Int.emod_nonneg _ (by norm_num))
  refine ⟨rfl, ?_, ?_, ?_, ?_, toSint64_of_range _ hc1 hc2, toSint64_of_range _ hm1 hm2,
    toSint64_of_range _ ha1 ha2⟩
  · by_cases hreg : S_ISREG (sys.stat p w.os).2.1.st_mode = true
    · simp [hreg]
    · by_cases hd : S_ISDIR (sys.stat p w.os).2.1.st_mode = true <;> simp [hreg, hd]
  · by_cases hreg : S_ISREG (sys.stat p w.os).2.1.st_mode = true
    · simp [hreg, S_ISREG_excludes_S_ISDIR _ hreg]
    · by_cases hd : S_ISDIR (sys.stat p w.os).2.1.st_mode = true <;> simp [hreg, hd]
  · by_cases hreg : S_ISREG (sys.stat p w.os).2.1.st_mode = true
    · simp [hreg]
    · by_cases hd : S_ISDIR (sys.stat p w.os).2.1.st_mode = true <;> simp [hreg, hd]
  · by_cases hreg : S_ISREG (sys.stat p w.os).2.1.st_mode = true
    · intro _
      simp only [hreg, if_true]
      exact hsz
    · by_cases hd : S_ISDIR (sys.stat p w.os).2.1.st_mode = true
      · intro hne
        simp [hreg, hd] at hne
      · intro _
        simp only [hreg, hd]
        simpa using hsz

/-- Witness for C6: the plain file `/tmp/f` of the sample file system. -/
theorem stat_classification_and_passthrough_witness :
    0 ≤ (MiniFS.native.stat "/tmp/f" sampleFS).1 ∧
    (MiniFS.native.stat "/tmp/f" sampleFS).2.1.WellTyped ∧
    (SDL_SYS_FSstat MiniFS.native "/tmp/f" staleInfo ⟨sampleFS, ""⟩).1 = 0 ∧
    ((SDL_SYS_FSstat MiniFS.native "/tmp/f" staleInfo ⟨sampleFS, ""⟩).2.1.type
        = SDL_PATHTYPE_FILE ↔
      S_ISREG (MiniFS.native.stat "/tmp/f" sampleFS).2.1.st_mode = true) ∧
    (SDL_SYS_FSstat MiniFS.native "/tmp/f" staleInfo ⟨sampleFS, ""⟩).2.1
      = ⟨SDL_PATHTYPE_FILE, 5, 12, 22, 32⟩ :=
  ⟨by decide, by unfold StatBuf.WellTyped; decide,
   (stat_classification_and_passthrough MiniFS.native "/tmp/f" staleInfo ⟨sampleFS, ""⟩
      (by decide) (by unfold StatBuf.WellTyped; decide)).1,
   (stat_classification_and_passthrough MiniFS.native "/tmp/f" staleInfo ⟨sampleFS, ""⟩
      (by decide) (by unfold StatBuf.WellTyped; decide)).2.1,
   by decide⟩

/-! ## The parent path of Remove -/

theorem SDL_strrchr_absent (s : List Char) (c : Char) (h : c ∉ s) : SDL_strrchr s c = none := by
  induction s with
  | nil => rfl
  | cons x xs ih =>
    have hx : x ≠ c := fun e => h (by simp [e])
    have hxs : c ∉ xs := fun e => h (by simp [e])
    simp [SDL_strrchr, ih hxs, hx]

theorem SDL_strrchr_last (dir name : List Char) (c : Char) (h : c ∉ name) :
    SDL_strrchr (dir ++ c :: name) c = some dir.length := by
  induction dir with
  | nil => simp [SDL_strrchr, SDL_strrchr_absent name c h]
  | cons x xs ih => simp [SDL_strrchr, ih]

/-- With no separator in the path, the parent check looks at `"."`. -/
theorem parentPath_without_separator (p : String) (h : '/' ∉ p.data) : parentPath p = "." := by
  unfold parentPath
  rw [SDL_strrchr_absent p.data '/' h]

/-- The parent check looks at the text before the last separator. -/
theorem parentPath_of_child (dir name : List Char) (h : '/' ∉ name) :
    parentPath (String.mk (dir ++ '/' :: name)) = String.mk dir := by
  unfold parentPath
  simp only []
  rw [SDL_strrchr_last dir name '/' h]
  simp

/-- For a path directly under the root the parent check looks at the empty
text, not at `"/"`. -/
theorem parentPath_of_root_child (name : List Char) (h : '/' ∉ name) :
    parentPath (String.mk ('/' :: name)) = "" := by
  have := parentPath_of_child [] name h
  simpa using this

/-! ## Remove -/

/-- `SDL_SYS_FSremove` when the native removal fails with an error number other
than `ENOENT`. -/
theorem SDL_SYS_FSremove_of_other_errno {σ : Type} (sys : Native σ) (p : String) (w : Proc σ)
    (hfail : (sys.remove p w.os).1 < 0)
    (herr : sys.errno (sys.remove p w.os).2 ≠ ENOENT) :
    SDL_SYS_FSremove sys p w =
      (-1, { os := (sys.remove p w.os).2,
             error := "Can't remove path: " ++ sys.strerror (sys.errno (sys.remove p w.os).2) }) := by
  unfold SDL_SYS_FSremove
  simp [hfail, herr, SDL_SetError]

/-- `SDL_SYS_FSremove` when the native removal fails with `ENOENT` and the copy
of the path is allocated. -/
theorem SDL_SYS_FSremove_of_ENOENT {σ : Type} (sys : Native σ) (p : String) (w : Proc σ)
    (hfail : (sys.remove p w.os).1 < 0)
    (herr : sys.errno (sys.remove p w.os).2 = ENOENT)
    (hdup : SDL_strdup sys p (sys.remove p w.os).2 = some p) :
    SDL_SYS_FSremove sys p w =
      if (sys.stat (parentPath p) (sys.remove p w.os).2).1 = 0 then
        (0, { os := (sys.stat (parentPath p) (sys.remove p w.os).2).2.2, error := w.error })
      else
        (-1, { os := (sys.stat (parentPath p) (sys.remove p w.os).2).2.2,
               error := "Can't remove path: " ++ sys.strerror ENOENT }) := by
  unfold SDL_SYS_FSremove
  simp only [hfail, herr, hdup, if_true]
  by_cases hq : (sys.stat (parentPath p) (sys.remove p w.os).2).1 = 0
  · simp [hq]
  · simp [hq, SDL_SetError]

/-- C1, evaluated at a path directly under the root.  In the sample file
system `/x` does not exist and `/` is a directory.  The native removal of `/x`
fails with `ENOENT`; the parent check of `SDL_SYS_FSremove` stats the empty
text instead of `/`; that `stat` fails, so the call returns `-1` and records an
error although the directory containing `/x` exists.  A second removal of the
existing file `/f` of a root-only file system fails in the same way. -/
theorem remove_under_root_reports_failure :
    (MiniFS.native.remove "/x" sampleFS).1 < 0 ∧
    MiniFS.native.errno (MiniFS.native.remove "/x" sampleFS).2 = ENOENT ∧
    IsDirectoryAt MiniFS.native "/" (MiniFS.native.remove "/x" sampleFS).2 ∧
    SDL_strdup MiniFS.native "/x" (MiniFS.native.remove "/x" sampleFS).2 = some "/x" ∧
    parentPath "/x" = "" ∧
    (SDL_SYS_FSremove MiniFS.native "/x" ⟨sampleFS, ""⟩).1 = -1 ∧
    (SDL_SYS_FSremove MiniFS.native "/x" ⟨sampleFS, ""⟩).2.error
      = "Can't remove path: No such file or directory" ∧
    (SDL_SYS_FSremove MiniFS.native "/f"
      ⟨{ sampleFS with nodes := ("/f", ⟨S_IFREG, 0, 0, 0, 0⟩) :: sampleFS.nodes }, ""⟩).1 = 0 ∧
    (SDL_SYS_FSremove MiniFS.native "/f"
      (SDL_SYS_FSremove MiniFS.native "/f"
        ⟨{ sampleFS with nodes := ("/f", ⟨S_IFREG, 0, 0, 0, 0⟩) :: sampleFS.nodes }, ""⟩).2).1
      = -1 := by
  refine ⟨by decide, by decide, ?_, by decide, by decide, by decide, by decide, by decide,
    by decide⟩
  unfold IsDirectoryAt
  decide

/-- C2. Remove surfaces the failures it does not absorb with the error of the
removal.  If the native removal fails and either its errno is not `ENOENT`, or
its errno is `ENOENT` and the parent check is made (the copy of the path is
allocated) and fails, then `SDL_SYS_FSremove` returns `-1` and the recorded text
is `"Can't remove path: "` followed by the text of the errno the removal left,
whatever errno the parent `stat` leaves.  For an errno other than `ENOENT` the
result does not depend on `stat` at all. -/
theorem remove_failure_reports_removal_errno {σ : Type} (sys : Native σ) (p : String)
    (w : Proc σ)
    (hfail : (sys.remove p w.os).1 < 0)
    (hcase : sys.errno (sys.remove p w.os).2 ≠ ENOENT ∨
      (sys.errno (sys.remove p w.os).2 = ENOENT ∧
        SDL_strdup sys p (sys.remove p w.os).2 = some p ∧
        (sys.stat (parentPath p) (sys.remove p w.os).2).1 ≠ 0)) :
    (SDL_SYS_FSremove sys p w).1 = -1 ∧
    (SDL_SYS_FSremove sys p w).2.error
      = "Can't remove path: " ++ sys.strerror (sys.errno (sys.remove p w.os).2) ∧
    (sys.errno (sys.remove p w.os).2 ≠ ENOENT →
      ∀ st : String → σ → Int × StatBuf × σ,
        SDL_SYS_FSremove { sys with stat := st } p w = SDL_SYS_FSremove sys p w) := by
  rcases hcase with herr | ⟨herr, hdup, hstat⟩
  · rw [SDL_SYS_FSremove_of_other_errno sys p w hfail herr]
    refine ⟨rfl, rfl, fun _ st => ?_⟩
    exact SDL_SYS_FSremove_of_other_errno { sys with stat := st } p w hfail herr
  · rw [SDL_SYS_FSremove_of_ENOENT sys p w hfail herr hdup]
    rw [if_neg hstat]
    refine ⟨rfl, ?_, fun h => absurd herr h⟩
    simp only [herr]

/-- Witness for C2: a system whose removal fails with `ENOENT` (2) and whose
`stat` fails with `EACCES` (13); the text recorded is that of `ENOENT`. -/
theorem remove_failure_reports_removal_errno_witness :
    ((failing 2 18 17 13 13).remove "/missing_parent/child" 0).1 < 0 ∧
    (failing 2 18 17 13 13).errno ((failing 2 18 17 13 13).remove "/missing_parent/child" 0).2
      = ENOENT ∧
    parentPath "/missing_parent/child" = "/missing_parent" ∧
    ((failing 2 18 17 13 13).stat "/missing_parent" 2).1 ≠ 0 ∧
    (failing 2 18 17 13 13).errno ((failing 2 18 17 13 13).stat "/missing_parent" 2).2.2 = 13 ∧
    (SDL_SYS_FSremove (failing 2 18 17 13 13) "/missing_parent/child" ⟨0, ""⟩).1 = -1 ∧
    (SDL_SYS_FSremove (failing 2 18 17 13 13) "/missing_parent/child" ⟨0, ""⟩).2.error
      = "Can't remove path: " ++ strerrorText 2 :=
  ⟨by decide, by decide, by decide, by decide, by decide,
   (remove_failure_reports_removal_errno (failing 2 18 17 13 13) "/missing_parent/child" ⟨0, ""⟩
      (by decide) (Or.inr ⟨by decide, by decide, by decide⟩)).1,
   (remove_failure_reports_removal_errno (failing 2 18 17 13 13) "/missing_parent/child" ⟨0, ""⟩
      (by decide) (Or.inr ⟨by decide, by decide, by decide⟩)).2.1⟩

/-! ## Rename -/

/-- C9, evaluated on the code.  A failing `SDL_SYS_FSrename` returns `-1` and
records `"Can't remove path: "` followed by the text of the errno of `rename`:
the context of the message names the removal, not the rename, and the text
recorded is the very text a failing `SDL_SYS_FSremove` records for the same
errno. -/
theorem rename_failure_records_remove_context {σ : Type} (sys : Native σ)
    (oldfullpath newfullpath : String) (w : Proc σ)
    (hfail : (sys.rename oldfullpath newfullpath w.os).1 < 0) :
    SDL_SYS_FSrename sys oldfullpath newfullpath w =
      (-1, { os := (sys.rename oldfullpath newfullpath w.os).2,
             error := "Can't remove path: " ++
               sys.strerror (sys.errno (sys.rename oldfullpath newfullpath w.os).2) }) ∧
    ∀ (p : String) (v : Proc σ), (sys.remove p v.os).1 < 0 →
      sys.errno (sys.remove p v.os).2 ≠ ENOENT →
      sys.errno (sys.remove p v.os).2 = sys.errno (sys.rename oldfullpath newfullpath w.os).2 →
      (SDL_SYS_FSremove sys p v).2.error
        = (SDL_SYS_FSrename sys oldfullpath newfullpath w).2.error := by
  have hren : SDL_SYS_FSrename sys oldfullpath newfullpath w =
      (-1, { os := (sys.rename oldfullpath newfullpath w.os).2,
             error := "Can't remove path: " ++
               sys.strerror (sys.errno (sys.rename oldfullpath newfullpath w.os).2) }) := by
    unfold SDL_SYS_FSrename
    simp [hfail, SDL_SetError]
  refine ⟨hren, fun p v hrm hne heq => ?_⟩
  rw [hren, SDL_SYS_FSremove_of_other_errno sys p v hrm hne, heq]

/-- Witness for C9's evaluation: `rename` and `remove` both failing with
`EACCES` (13) leave the same text. -/
theorem rename_failure_records_remove_context_witness :
    ((failing 13 13 17 13 13).rename "/a" "/b" 0).1 < 0 ∧
    (SDL_SYS_FSrename (failing 13 13 17 13 13) "/a" "/b" ⟨0, ""⟩).1 = -1 ∧
    (SDL_SYS_FSrename (failing 13 13 17 13 13) "/a" "/b" ⟨0, ""⟩).2.error
      = "Can't remove path: Permission denied" ∧
    (SDL_SYS_FSremove (failing 13 13 17 13 13) "/a" ⟨0, ""⟩).2.error
      = (SDL_SYS_FSrename (failing 13 13 17 13 13) "/a" "/b" ⟨0, ""⟩).2.error :=
  ⟨by decide, by decide, by decide,
   (rename_failure_records_remove_context (failing 13 13 17 13 13) "/a" "/b" ⟨0, ""⟩
      (by decide)).2 "/a" ⟨0, ""⟩ (by decide) (by decide) (by decide)⟩

/-! ## MakeDirectory -/

/-- `SDL_SYS_FSmkdir` when the native `mkdir` fails with an error number other
than `EEXIST`. -/
theorem SDL_SYS_FSmkdir_of_other_errno {σ : Type} (sys : Native σ) (p : String) (w : Proc σ)
    (hfail : (sys.mkdir p 0o770 w.os).1 < 0)
    (herr : sys.errno (sys.mkdir p 0o770 w.os).2 ≠ EEXIST) :
    SDL_SYS_FSmkdir sys p w =
      (-1, { os := (sys.mkdir p 0o770 w.os).2,
             error := "Can't create directory: " ++
               sys.strerror (sys.errno (sys.mkdir p 0o770 w.os).2) }) := by
  unfold SDL_SYS_FSmkdir
  simp [hfail, herr, SDL_SetError]

/-- `SDL_SYS_FSmkdir` when the native `mkdir` fails with `EEXIST`. -/
theorem SDL_SYS_FSmkdir_of_EEXIST {σ : Type} (sys : Native σ) (p : String) (w : Proc σ)
    (hfail : (sys.mkdir p 0o770 w.os).1 < 0)
    (herr : sys.errno (sys.mkdir p 0o770 w.os).2 = EEXIST) :
    SDL_SYS_FSmkdir sys p w =
      if IsDirectoryAt sys p (sys.mkdir p 0o770 w.os).2 then
        (0, { os := (sys.stat p (sys.mkdir p 0o770 w.os).2).2.2, error := w.error })
      else
        (-1, { os := (sys.stat p (sys.mkdir p 0o770 w.os).2).2.2,
               error := "Can't create directory: " ++ sys.strerror EEXIST }) := by
  unfold SDL_SYS_FSmkdir IsDirectoryAt
  simp only [hfail, herr, if_true]
  by_cases hq : (sys.stat p (sys.mkdir p 0o770 w.os).2).1 = 0 ∧
      S_ISDIR (sys.stat p (sys.mkdir p 0o770 w.os).2).2.1.st_mode = true
  · rw [if_pos hq, if_pos hq]
  · rw [if_neg hq, if_neg hq]
    rfl

/-- `SDL_SYS_FSmkdir` when the native `mkdir` does not fail. -/
theorem SDL_SYS_FSmkdir_of_success {σ : Type} (sys : Native σ) (p : String) (w : Proc σ)
    (hok : 0 ≤ (sys.mkdir p 0o770 w.os).1) :
    SDL_SYS_FSmkdir sys p w = (0, { os := (sys.mkdir p 0o770 w.os).2, error := w.error }) := by
  unfold SDL_SYS_FSmkdir
  simp [not_lt.mpr hok]

/-- C4. MakeDirectory never succeeds silently over a non-directory.  If the
native `mkdir` fails with `EEXIST` and the re-stat of the path fails or reports
a mode that is not a directory, `SDL_SYS_FSmkdir` returns `-1` and records
`"Can't create directory: "` followed by the text of `EEXIST`, the errno `mkdir`
left, whatever errno the re-stat leaves.  If `mkdir` fails with another errno,
the call returns `-1` with the text of that errno, and its result does not
depend on `stat`. -/
theorem mkdir_conflict_reports_original_errno {σ : Type} (sys : Native σ) (p : String)
    (w : Proc σ)
    (hfail : (sys.mkdir p 0o770 w.os).1 < 0)
    (hcase : (sys.errno (sys.mkdir p 0o770 w.os).2 = EEXIST ∧
        ((sys.stat p (sys.mkdir p 0o770 w.os).2).1 ≠ 0 ∨
         S_ISDIR (sys.stat p (sys.mkdir p 0o770 w.os).2).2.1.st_mode = false)) ∨
      sys.errno (sys.mkdir p 0o770 w.os).2 ≠ EEXIST) :
    (SDL_SYS_FSmkdir sys p w).1 = -1 ∧
    (SDL_SYS_FSmkdir sys p w).2.error
      = "Can't create directory: " ++ sys.strerror (sys.errno (sys.mkdir p 0o770 w.os).2) ∧
    (sys.errno (sys.mkdir p 0o770 w.os).2 ≠ EEXIST →
      (SDL_SYS_FSmkdir sys p w).2.os = (sys.mkdir p 0o770 w.os).2 ∧
      ∀ st : String → σ → Int × StatBuf × σ,
        SDL_SYS_FSmkdir { sys with stat := st } p w = SDL_SYS_FSmkdir sys p w) := by
  rcases hcase with ⟨herr, hstat⟩ | herr
  · have hnd : ¬ IsDirectoryAt sys p (sys.mkdir p 0o770 w.os).2 := by
      rintro ⟨h0, hd⟩
      rcases hstat with h | h
      · exact h h0
      · rw [h] at hd
        exact Bool.false_ne_true hd
    rw [SDL_SYS_FSmkdir_of_EEXIST sys p w hfail herr, if_neg hnd]
    refine ⟨rfl, ?_, fun h => absurd herr h⟩
    simp only [herr]
  · rw [SDL_SYS_FSmkdir_of_other_errno sys p w hfail herr]
    refine ⟨rfl, rfl, fun _ => ⟨rfl, fun st => ?_⟩⟩
    exact SDL_SYS_FSmkdir_of_other_errno { sys with stat := st } p w hfail herr

/-- Witness for C4: the plain file `/tmp/f` of the sample file system occupies
the path; `mkdir` fails with `EEXIST`, the re-stat succeeds and reports a file. -/
theorem mkdir_conflict_reports_original_errno_witness :
    (MiniFS.native.mkdir "/tmp/f" 0o770 sampleFS).1 < 0 ∧
    MiniFS.native.errno (MiniFS.native.mkdir "/tmp/f" 0o770 sampleFS).2 = EEXIST ∧
    S_ISDIR (MiniFS.native.stat "/tmp/f"
      (MiniFS.native.mkdir "/tmp/f" 0o770 sampleFS).2).2.1.st_mode = false ∧
    (SDL_SYS_FSmkdir MiniFS.native "/tmp/f" ⟨sampleFS, ""⟩).1 = -1 ∧
    (SDL_SYS_FSmkdir MiniFS.native "/tmp/f" ⟨sampleFS, ""⟩).2.error
      = "Can't create directory: " ++ strerrorText 17 :=
  ⟨by decide, by decide, by decide,
   (mkdir_conflict_reports_original_errno MiniFS.native "/tmp/f" ⟨sampleFS, ""⟩ (by decide)
      (Or.inl ⟨by decide, Or.inr (by decide)⟩)).1,
   (mkdir_conflict_reports_original_errno MiniFS.native "/tmp/f" ⟨sampleFS, ""⟩ (by decide)
      (Or.inl ⟨by decide, Or.inr (by decide)⟩)).2.1⟩

/-- On a directory, `SDL_SYS_FSmkdir` returns `0`, leaves the error text alone
and leaves the directory in place. -/
theorem SDL_SYS_FSmkdir_on_directory {σ : Type} (sys : Native σ) (p : String)
    (laws : DirectoryLaws sys p) (w : Proc σ) (hdir : IsDirectoryAt sys p w.os) :
    (SDL_SYS_FSmkdir sys p w).1 = 0 ∧
    (SDL_SYS_FSmkdir sys p w).2.error = w.error ∧
    IsDirectoryAt sys p (SDL_SYS_FSmkdir sys p w).2.os := by
  have hkept := laws.keptByMkdir w.os hdir
  by_cases hfail : (sys.mkdir p 0o770 w.os).1 < 0
  · have herr := laws.existsError w.os hdir hfail
    rw [SDL_SYS_FSmkdir_of_EEXIST sys p w hfail herr, if_pos hkept]
    exact ⟨rfl, rfl, laws.keptByStat _ hkept⟩
  · rw [SDL_SYS_FSmkdir_of_success sys p w (not_lt.mp hfail)]
    exact ⟨rfl, rfl, hkept⟩

/-- On a directory, `SDL_SYS_FSstat` returns `0` and writes type DIRECTORY. -/
theorem SDL_SYS_FSstat_on_directory {σ : Type} (sys : Native σ) (p : String)
    (info : SDL_PathInfo) (w : Proc σ) (hdir : IsDirectoryAt sys p w.os) :
    (SDL_SYS_FSstat sys p info w).1 = 0 ∧
    (SDL_SYS_FSstat sys p info w).2.1.type = SDL_PATHTYPE_DIRECTORY ∧
    (SDL_SYS_FSstat sys p info w).2.2.os = (sys.stat p w.os).2.2 := by
  obtain ⟨h0, hd⟩ := hdir
  have h : ¬ (sys.stat p w.os).1 < 0 := by rw [h0]; decide
  rw [SDL_SYS_FSstat_of_success sys p info w h]
  have hreg : S_ISREG (sys.stat p w.os).2.1.st_mode = false := by
    cases hr : S_ISREG (sys.stat p w.os).2.1.st_mode
    · rfl
    · rw [S_ISREG_excludes_S_ISDIR _ hr] at hd
      exact absurd hd Bool.false_ne_true
  refine ⟨rfl, ?_, rfl⟩
  simp [hreg, hd]

/-- C3. MakeDirectory is idempotent.  First part: if the native `mkdir` fails
with `EEXIST` and the re-stat of the same path returns `0` and reports a
directory, `SDL_SYS_FSmkdir` returns `0` and leaves the last-error text as it
was.  Second part: on a file system obeying `DirectoryLaws` for `p`, if the
`mkdir` of a first `SDL_SYS_FSmkdir(p)` succeeds, then that call returns `0`, a
second call made right after it (or after a `SDL_SYS_FSstat(p)` in between) also
returns `0` and records no error, and `SDL_SYS_FSstat(p)` returns `0` with type
DIRECTORY after each call. -/
theorem mkdir_idempotent {σ : Type} (sys : Native σ) (p : String) (w : Proc σ)
    (info : SDL_PathInfo) :
    ((sys.mkdir p 0o770 w.os).1 < 0 →
      sys.errno (sys.mkdir p 0o770 w.os).2 = EEXIST →
      (sys.stat p (sys.mkdir p 0o770 w.os).2).1 = 0 →
      S_ISDIR (sys.stat p (sys.mkdir p 0o770 w.os).2).2.1.st_mode = true →
      (SDL_SYS_FSmkdir sys p w).1 = 0 ∧ (SDL_SYS_FSmkdir sys p w).2.error = w.error) ∧
    (DirectoryLaws sys p → 0 ≤ (sys.mkdir p 0o770 w.os).1 →
      (SDL_SYS_FSmkdir sys p w).1 = 0 ∧
      (SDL_SYS_FSstat sys p info (SDL_SYS_FSmkdir sys p w).2).1 = 0 ∧
      (SDL_SYS_FSstat sys p info (SDL_SYS_FSmkdir sys p w).2).2.1.type
        = SDL_PATHTYPE_DIRECTORY ∧
      (SDL_SYS_FSmkdir sys p (SDL_SYS_FSmkdir sys p w).2).1 = 0 ∧
      (SDL_SYS_FSmkdir sys p (SDL_SYS_FSmkdir sys p w).2).2.error = w.error ∧
      (SDL_SYS_FSstat sys p info (SDL_SYS_FSmkdir sys p (SDL_SYS_FSmkdir sys p w).2).2).1 = 0 ∧
      (SDL_SYS_FSstat sys p info
        (SDL_SYS_FSmkdir sys p (SDL_SYS_FSmkdir sys p w).2).2).2.1.type
        = SDL_PATHTYPE_DIRECTORY ∧
      (SDL_SYS_FSmkdir sys p
        (SDL_SYS_FSstat sys p info (SDL_SYS_FSmkdir sys p w).2).2.2).1 = 0) := by
  constructor
  · intro hfail herr h0 hd
    rw [SDL_SYS_FSmkdir_of_EEXIST sys p w hfail herr, if_pos ⟨h0, hd⟩]
    exact ⟨rfl, rfl⟩
  · intro laws hok
    have hfirst := SDL_SYS_FSmkdir_of_success sys p w hok
    have hdir1 : IsDirectoryAt sys p (SDL_SYS_FSmkdir sys p w).2.os := by
      rw [hfirst]
      exact laws.created w.os hok
    have herr1 : (SDL_SYS_FSmkdir sys p w).2.error = w.error := by rw [hfirst]
    have hstat1 := SDL_SYS_FSstat_on_directory sys p info _ hdir1
    have hsecond := SDL_SYS_FSmkdir_on_directory sys p laws _ hdir1
    have hstat2 := SDL_SYS_FSstat_on_directory sys p info _ hsecond.2.2
    have hdir1' : IsDirectoryAt sys p
        (SDL_SYS_FSstat sys p info (SDL_SYS_FSmkdir sys p w).2).2.2.os := by
      rw [hstat1.2.2]
      exact laws.keptByStat _ hdir1
    have hthird := SDL_SYS_FSmkdir_on_directory sys p laws _ hdir1'
    refine ⟨by rw [hfirst], hstat1.1, hstat1.2.1, hsecond.1, ?_, hstat2.1, hstat2.2.1, hthird.1⟩
    rw [hsecond.2.1, herr1]

/-- In the table-driven file system a path is a directory exactly when the
table lists it with a directory mode. -/
theorem MiniFS_isDirectoryAt_iff (p : String) (s : MiniFS) :
    IsDirectoryAt MiniFS.native p s ↔
      ∃ sb, s.nodes.lookup p = some sb ∧ S_ISDIR sb.st_mode = true := by
  unfold IsDirectoryAt MiniFS.native
  cases h : s.nodes.lookup p with
  | none => simp [h]
  | some sb => simp [h]

/-- The table-driven file system obeys the laws asked of directories. -/
theorem MiniFS_directoryLaws (p : String) : DirectoryLaws MiniFS.native p := by
  refine ⟨?_, ?_, ?_, ?_⟩
  · intro s hok
    rw [MiniFS_isDirectoryAt_iff]
    cases h : s.nodes.lookup p with
    | some sb => simp [MiniFS.native, h] at hok
    | none =>
      refine ⟨newDirectory 0o770, ?_, by decide⟩
      simp [MiniFS.native, h, List.lookup]
  · intro s hdir
    obtain ⟨sb, h, hd⟩ := (MiniFS_isDirectoryAt_iff p s).mp hdir
    rw [MiniFS_isDirectoryAt_iff]
    exact ⟨sb, by simp [MiniFS.native, h], hd⟩
  · intro s hdir
    obtain ⟨sb, h, hd⟩ := (MiniFS_isDirectoryAt_iff p s).mp hdir
    rw [MiniFS_isDirectoryAt_iff]
    exact ⟨sb, by simp [MiniFS.native, h], hd⟩
  · intro s hdir _
    obtain ⟨sb, h, hd⟩ := (MiniFS_isDirectoryAt_iff p s).mp hdir
    simp [MiniFS.native, h]

/-- Witness for C3: in the sample file system `/tmp/d` does not exist; the
first `SDL_SYS_FSmkdir` creates it, the second finds it (`mkdir` fails with
`EEXIST`, the re-stat reports a directory) and returns `0` as well. -/
theorem mkdir_idempotent_witness :
    0 ≤ (MiniFS.native.mkdir "/tmp/d" 0o770 sampleFS).1 ∧
    (MiniFS.native.mkdir "/tmp/d" 0o770 (SDL_SYS_FSmkdir MiniFS.native "/tmp/d"
      ⟨sampleFS, ""⟩).2.os).1 < 0 ∧
    MiniFS.native.errno (MiniFS.native.mkdir "/tmp/d" 0o770 (SDL_SYS_FSmkdir MiniFS.native
      "/tmp/d" ⟨sampleFS, ""⟩).2.os).2 = EEXIST ∧
    ((SDL_SYS_FSmkdir MiniFS.native "/tmp/d" ⟨sampleFS, ""⟩).1 = 0 ∧
      (SDL_SYS_FSstat MiniFS.native "/tmp/d" staleInfo
        (SDL_SYS_FSmkdir MiniFS.native "/tmp/d" ⟨sampleFS, ""⟩).2).1 = 0 ∧
      (SDL_SYS_FSstat MiniFS.native "/tmp/d" staleInfo
        (SDL_SYS_FSmkdir MiniFS.native "/tmp/d" ⟨sampleFS, ""⟩).2).2.1.type
        = SDL_PATHTYPE_DIRECTORY ∧
      (SDL_SYS_FSmkdir MiniFS.native "/tmp/d"
        (SDL_SYS_FSmkdir MiniFS.native "/tmp/d" ⟨sampleFS, ""⟩).2).1 = 0) ∧
    ((SDL_SYS_FSmkdir MiniFS.native "/tmp" ⟨sampleFS, ""⟩).1 = 0 ∧
      (SDL_SYS_FSmkdir MiniFS.native "/tmp" ⟨sampleFS, ""⟩).2.error = "") :=
  ⟨by decide, by decide, by decide,
   ⟨((mkdir_idempotent MiniFS.native "/tmp/d" ⟨sampleFS, ""⟩ staleInfo).2
        (MiniFS_directoryLaws "/tmp/d") (by decide)).1,
    ((mkdir_idempotent MiniFS.native "/tmp/d" ⟨sampleFS, ""⟩ staleInfo).2
        (MiniFS_directoryLaws "/tmp/d") (by decide)).2.1,
    ((mkdir_idempotent MiniFS.native "/tmp/d" ⟨sampleFS, ""⟩ staleInfo).2
        (MiniFS_directoryLaws "/tmp/d") (by decide)).2.2.1,
    ((mkdir_idempotent MiniFS.native "/tmp/d" ⟨sampleFS, ""⟩ staleInfo).2
        (MiniFS_directoryLaws "/tmp/d") (by decide)).2.2.2.1⟩,
   (mkdir_idempotent MiniFS.native "/tmp" ⟨sampleFS, ""⟩ staleInfo).1
     (by decide) (by decide) (by decide) (by decide)⟩

/-! ## Enumerate -/

theorem strcmpChars_eq_zero_iff (a b : List Char) : strcmpChars a b = 0 ↔ a = b := by
  induction a generalizing b with
  | nil => cases b <;> simp [strcmpChars]
  | cons x xs ih =>
    cases b with
    | nil => simp [strcmpChars]
    | cons y ys =>
      by_cases hxy : x = y
      · simp [strcmpChars, hxy, ih]
      · by_cases hlt : x.toNat < y.toNat <;> simp [strcmpChars, hxy, hlt]

theorem SDL_strcmp_eq_zero_iff (a b : String) : SDL_strcmp a b = 0 ↔ a = b := by
  unfold SDL_strcmp
  rw [strcmpChars_eq_zero_iff]
  constructor
  · intro h
    cases a
    cases b
    cases h
    rfl
  · intro h
    rw [h]

theorem realEntries_cons_dot (name : String) (rest : List String)
    (h : name = "." ∨ name = "..") : realEntries (name :: rest) = realEntries rest := by
  unfold realEntries
  rw [List.filter_cons_of_neg]
  simp only [decide_eq_true_eq, not_and_or, not_not]
  exact h

theorem realEntries_cons_entry (name : String) (rest : List String)
    (h1 : name ≠ ".") (h2 : name ≠ "..") :
    realEntries (name :: rest) = name :: realEntries rest := by
  unfold realEntries
  rw [List.filter_cons_of_pos]
  simp only [decide_eq_true_eq]
  exact ⟨h1, h2⟩

theorem enumLoop_stopped {υ κ : Type} (cb : Callback υ κ) (userdata : υ) (dirname : String)
    (dir : List String) (retval : Int) (k : κ) (log : List (Invocation υ)) (h : retval ≠ 1) :
    enumLoop cb userdata dirname dir retval k log = (retval, k, log) := by
  cases dir with
  | nil => rfl
  | cons name rest => simp [enumLoop, h]

theorem enumLoop_skip {υ κ : Type} (cb : Callback υ κ) (userdata : υ) (dirname : String)
    (name : String) (rest : List String) (k : κ) (log : List (Invocation υ))
    (h : name = "." ∨ name = "..") :
    enumLoop cb userdata dirname (name :: rest) 1 k log
      = enumLoop cb userdata dirname rest 1 k log := by
  have h' : SDL_strcmp name "." = 0 ∨ SDL_strcmp name ".." = 0 := by
    simpa [SDL_strcmp_eq_zero_iff] using h
  simp only [enumLoop, if_true, if_pos h']

theorem enumLoop_call {υ κ : Type} (cb : Callback υ κ) (userdata : υ) (dirname : String)
    (name : String) (rest : List String) (k : κ) (log : List (Invocation υ))
    (h1 : name ≠ ".") (h2 : name ≠ "..") :
    enumLoop cb userdata dirname (name :: rest) 1 k log
      = enumLoop cb userdata dirname rest (cb userdata dirname name k).1
          (cb userdata dirname name k).2 (log ++ [invocationOf cb userdata dirname name k]) := by
  have h' : ¬ (SDL_strcmp name "." = 0 ∨ SDL_strcmp name ".." = 0) := by
    simp [SDL_strcmp_eq_zero_iff, h1, h2]
  simp only [enumLoop, if_true, if_neg h', invocationOf]

/-- The calls already logged stay in front of the calls the loop adds. -/
theorem enumLoop_log {υ κ : Type} (cb : Callback υ κ) (userdata : υ) (dirname : String)
    (dir : List String) (retval : Int) (k : κ) (log : List (Invocation υ)) :
    enumLoop cb userdata dirname dir retval k log =
      ((enumLoop cb userdata dirname dir retval k []).1,
       (enumLoop cb userdata dirname dir retval k []).2.1,
       log ++ (enumLoop cb userdata dirname dir retval k []).2.2) := by
  induction dir generalizing retval k log with
  | nil => simp [enumLoop]
  | cons name rest ih =>
    by_cases hr : retval = 1
    · subst hr
      by_cases hdot : name = "." ∨ name = ".."
      · rw [enumLoop_skip _ _ _ _ _ _ _ hdot, enumLoop_skip _ _ _ _ _ _ _ hdot]
        exact ih 1 k log
      · have h1 : name ≠ "." := fun e => hdot (Or.inl e)
        have h2 : name ≠ ".." := fun e => hdot (Or.inr e)
        rw [enumLoop_call _ _ _ _ _ _ _ h1 h2, enumLoop_call _ _ _ _ _ _ _ h1 h2]
        rw [ih _ _ (log ++ [invocationOf cb userdata dirname name k]),
          ih _ _ ([] ++ [invocationOf cb userdata dirname name k])]
        simp
    · rw [enumLoop_stopped _ _ _ _ _ _ _ hr, enumLoop_stopped _ _ _ _ _ _ _ hr]
      simp

/-- Induction along the run of the loop started with `retval = 1` and an empty
log: the stream is exhausted, or its head is skipped, or the call on its head
stops the loop, or the call on its head returns `1` and the loop goes on. -/
theorem enumLoop_induction {υ κ : Type} (cb : Callback υ κ) (userdata : υ) (dirname : String)
    (motive : List String → κ → Int × κ × List (Invocation υ) → Prop)
    (done : ∀ k, motive [] k (1, k, []))
    (skip : ∀ name rest k o, (name = "." ∨ name = "..") → motive rest k o →
      motive (name :: rest) k o)
    (stop : ∀ name rest k, name ≠ "." → name ≠ ".." → (cb userdata dirname name k).1 ≠ 1 →
      motive (name :: rest) k
        ((cb userdata dirname name k).1, (cb userdata dirname name k).2,
          [invocationOf cb userdata dirname name k]))
    (step : ∀ name rest k o, name ≠ "." → name ≠ ".." → (cb userdata dirname name k).1 = 1 →
      motive rest (cb userdata dirname name k).2 o →
      motive (name :: rest) k (o.1, o.2.1, invocationOf cb userdata dirname name k :: o.2.2))
    (dir : List String) (k : κ) :
    motive dir k (enumLoop cb userdata dirname dir 1 k []) := by
  induction dir generalizing k with
  | nil => exact done k
  | cons name rest ih =>
    by_cases hdot : name = "." ∨ name = ".."
    · rw [enumLoop_skip _ _ _ _ _ _ _ hdot]
      exact skip name rest k _ hdot (ih k)
    · have h1 : name ≠ "." := fun e => hdot (Or.inl e)
      have h2 : name ≠ ".." := fun e => hdot (Or.inr e)
      rw [enumLoop_call _ _ _ _ _ _ _ h1 h2]
      by_cases hr : (cb userdata dirname name k).1 = 1
      · rw [enumLoop_log, hr]
        have := step name rest k _ h1 h2 hr (ih (cb userdata dirname name k).2)
        simpa using this
      · rw [enumLoop_stopped _ _ _ _ _ _ _ hr]
        simpa using stop name rest k h1 h2 hr

theorem SDL_SYS_FSenumerate_of_open {σ υ κ : Type} (sys : Native σ) (fullpath dirname : String)
    (cb : Callback υ κ) (userdata : υ) (w : Proc σ) (k : κ) (dir : List String)
    (hopen : (sys.opendir fullpath w.os).1 = some dir) :
    SDL_SYS_FSenumerate sys fullpath dirname cb userdata w k =
      ((enumLoop cb userdata dirname dir 1 k []).1,
       { os := sys.closedir (sys.opendir fullpath w.os).2, error := w.error },
       (enumLoop cb userdata dirname dir 1 k []).2.1,
       (enumLoop cb userdata dirname dir 1 k []).2.2) := by
  unfold SDL_SYS_FSenumerate
  simp only [hopen]

theorem SDL_SYS_FSenumerate_of_failure {σ υ κ : Type} (sys : Native σ)
    (fullpath dirname : String) (cb : Callback υ κ) (userdata : υ) (w : Proc σ) (k : κ)
    (hopen : (sys.opendir fullpath w.os).1 = none) :
    SDL_SYS_FSenumerate sys fullpath dirname cb userdata w k =
      (-1,
       { os := (sys.opendir fullpath w.os).2,
         error := "Can't open directory: " ++
           sys.strerror (sys.errno (sys.opendir fullpath w.os).2) },
       k, []) := by
  unfold SDL_SYS_FSenumerate
  simp only [hopen, SDL_SetError]

/-- With a callback that always returns `1` the loop calls it on every real
entry, in order, and ends with `retval = 1`. -/
theorem enumLoop_all_continue {υ κ : Type} (cb : Callback υ κ) (userdata : υ)
    (dirname : String) (hcont : ∀ u d n k, (cb u d n k).1 = 1) (dir : List String) (k : κ) :
    (enumLoop cb userdata dirname dir 1 k []).1 = 1 ∧
    (enumLoop cb userdata dirname dir 1 k []).2.2 =
      (realEntries dir).map (fun n => ⟨userdata, dirname, n, 1⟩) := by
  refine enumLoop_induction cb userdata dirname
    (fun dir _ o => o.1 = 1 ∧ o.2.2 = (realEntries dir).map (fun n => ⟨userdata, dirname, n, 1⟩))
    ?_ ?_ ?_ ?_ dir k
  · intro _
    exact ⟨rfl, rfl⟩
  · intro name rest _ o hdot ih
    rw [realEntries_cons_dot name rest hdot]
    exact ih
  · intro name rest k _ _ hr
    exact absurd (hcont userdata dirname name k) hr
  · intro name rest k o h1 h2 hr ih
    rw [realEntries_cons_entry name rest h1 h2]
    refine ⟨ih.1, ?_⟩
    simp only [List.map_cons, ih.2, invocationOf, hr]

/-- The entries the loop has called the callback on are the first real entries
of the stream, as many as there were calls. -/
theorem enumLoop_names {υ κ : Type} (cb : Callback υ κ) (userdata : υ) (dirname : String)
    (dir : List String) (k : κ) :
    (enumLoop cb userdata dirname dir 1 k []).2.2.map (fun c => c.name) =
      (realEntries dir).take (enumLoop cb userdata dirname dir 1 k []).2.2.length := by
  refine enumLoop_induction cb userdata dirname
    (fun dir _ o => o.2.2.map (fun c => c.name) = (realEntries dir).take o.2.2.length)
    ?_ ?_ ?_ ?_ dir k
  · intro _
    rfl
  · intro name rest _ o hdot ih
    rw [realEntries_cons_dot name rest hdot]
    exact ih
  · intro name rest k h1 h2 _
    rw [realEntries_cons_entry name rest h1 h2]
    simp [invocationOf]
  · intro name rest k o h1 h2 _ ih
    rw [realEntries_cons_entry name rest h1 h2]
    simp only [List.map_cons, List.length_cons, List.take_succ_cons, ih, invocationOf]

/-- A call that returns something other than `1` is the last call, and its
value is the value of `retval` when the loop ends. -/
theorem enumLoop_stop_index {υ κ : Type} (cb : Callback υ κ) (userdata : υ) (dirname : String)
    (dir : List String) (k : κ) (j : Nat) (c : Invocation υ)
    (hc : (enumLoop cb userdata dirname dir 1 k []).2.2[j]? = some c) (hstop : c.result ≠ 1) :
    (enumLoop cb userdata dirname dir 1 k []).2.2.length = j + 1 ∧
    (enumLoop cb userdata dirname dir 1 k []).1 = c.result := by
  revert j c
  refine enumLoop_induction cb userdata dirname
    (fun _ _ o => ∀ (j : Nat) (c : Invocation υ), o.2.2[j]? = some c → c.result ≠ 1 →
      o.2.2.length = j + 1 ∧ o.1 = c.result)
    ?_ ?_ ?_ ?_ dir k
  · intro _ j c hc
    simp at hc
  · intro _ _ _ o _ ih
    exact ih
  · intro name rest k _ _ _ j c hc _
    cases j with
    | zero =>
      simp only [List.getElem?_cons_zero, Option.some.injEq] at hc
      subst hc
      exact ⟨rfl, rfl⟩
    | succ j => simp at hc
  · intro name rest k o _ _ hr ih j c hc hstop
    cases j with
    | zero =>
      simp only [List.getElem?_cons_zero, Option.some.injEq] at hc
      subst hc
      exact absurd hr hstop
    | succ j =>
      simp only [List.getElem?_cons_succ] at hc
      obtain ⟨hl, hv⟩ := ih j c hc hstop
      exact ⟨by simp [hl], hv⟩

/-- The value of `retval` when the loop ends: `1` when no call was made, the
value of the last call otherwise. -/
theorem enumLoop_result {υ κ : Type} (cb : Callback υ κ) (userdata : υ) (dirname : String)
    (dir : List String) (k : κ) :
    ((enumLoop cb userdata dirname dir 1 k []).2.2 = [] →
      (enumLoop cb userdata dirname dir 1 k []).1 = 1) ∧
    (∀ c, (enumLoop cb userdata dirname dir 1 k []).2.2.getLast? = some c →
      (enumLoop cb userdata dirname dir 1 k []).1 = c.result) := by
  refine enumLoop_induction cb userdata dirname
    (fun _ _ o => (o.2.2 = [] → o.1 = 1) ∧ (∀ c, o.2.2.getLast? = some c → o.1 = c.result))
    ?_ ?_ ?_ ?_ dir k
  · intro _
    exact ⟨fun _ => rfl, fun c hc => by simp at hc⟩
  · intro _ _ _ o _ ih
    exact ih
  · intro name rest k _ _ _
    refine ⟨fun h => by simp at h, fun c hc => ?_⟩
    simp only [List.getLast?_singleton, Option.some.injEq] at hc
    subst hc
    rfl
  · intro name rest k o _ _ hr ih
    refine ⟨fun h => by simp at h, fun c hc => ?_⟩
    cases ht : o.2.2 with
    | nil =>
      rw [ht] at hc
      simp only [List.getLast?_singleton, Option.some.injEq] at hc
      subst hc
      simp only [invocationOf, hr]
      exact ih.1 ht
    | cons x xs =>
      rw [ht, List.getLast?_cons_cons] at hc
      rw [← ht] at hc
      exact ih.2 c hc

/-- When the loop ends with `retval = 1` it has called the callback on every
real entry. -/
theorem enumLoop_complete {υ κ : Type} (cb : Callback υ κ) (userdata : υ) (dirname : String)
    (dir : List String) (k : κ) (h : (enumLoop cb userdata dirname dir 1 k []).1 = 1) :
    (enumLoop cb userdata dirname dir 1 k []).2.2.map (fun c => c.name) = realEntries dir := by
  revert h
  refine enumLoop_induction cb userdata dirname
    (fun dir _ o => o.1 = 1 → o.2.2.map (fun c => c.name) = realEntries dir)
    ?_ ?_ ?_ ?_ dir k
  · intro _ _
    rfl
  · intro name rest _ o hdot ih h
    rw [realEntries_cons_dot name rest hdot]
    exact ih h
  · intro name rest k _ _ hr h
    exact absurd h hr
  · intro name rest k o h1 h2 _ ih h
    rw [realEntries_cons_entry name rest h1 h2]
    simp only [List.map_cons, ih h, invocationOf]

/-- Every call receives the caller's user data and directory name, and an
entry name that is neither `"."` nor `".."`. -/
theorem enumLoop_arguments {υ κ : Type} (cb : Callback υ κ) (userdata : υ) (dirname : String)
    (dir : List String) (k : κ) :
    ∀ c ∈ (enumLoop cb userdata dirname dir 1 k []).2.2,
      c.userdata = userdata ∧ c.dirname = dirname ∧ c.name ≠ "." ∧ c.name ≠ ".." ∧
      c.name ∈ dir := by
  refine enumLoop_induction cb userdata dirname
    (fun dir _ o => ∀ c ∈ o.2.2,
      c.userdata = userdata ∧ c.dirname = dirname ∧ c.name ≠ "." ∧ c.name ≠ ".." ∧ c.name ∈ dir)
    ?_ ?_ ?_ ?_ dir k
  · intro _ c hc
    simp at hc
  · intro name rest _ o _ ih c hc
    obtain ⟨a, b, c1, c2, c3⟩ := ih c hc
    exact ⟨a, b, c1, c2, List.mem_cons_of_mem _ c3⟩
  · intro name rest k h1 h2 _ c hc
    simp only [List.mem_singleton] at hc
    subst hc
    exact ⟨rfl, rfl, h1, h2, List.mem_cons_self _ _⟩
  · intro name rest k o h1 h2 _ ih c hc
    rcases List.mem_cons.mp hc with hc | hc
    · subst hc
      exact ⟨rfl, rfl, h1, h2, List.mem_cons_self _ _⟩
    · obtain ⟨a, b, c1, c2, c3⟩ := ih c hc
      exact ⟨a, b, c1, c2, List.mem_cons_of_mem _ c3⟩

/-- When the first real entry of the stream makes the callback return something
other than `1`, that call is the only one. -/
theorem enumLoop_first_stop {υ κ : Type} (cb : Callback υ κ) (userdata : υ) (dirname : String)
    (pre : List String) (e : String) (rest : List String) (k : κ)
    (hpre : ∀ n ∈ pre, n = "." ∨ n = "..") (h1 : e ≠ ".") (h2 : e ≠ "..")
    (hr : (cb userdata dirname e k).1 ≠ 1) :
    enumLoop cb userdata dirname (pre ++ e :: rest) 1 k [] =
      ((cb userdata dirname e k).1, (cb userdata dirname e k).2,
        [invocationOf cb userdata dirname e k]) := by
  induction pre with
  | nil =>
    rw [List.nil_append, enumLoop_call _ _ _ _ _ _ _ h1 h2, enumLoop_stopped _ _ _ _ _ _ _ hr]
    rfl
  | cons n ns ih =>
    rw [List.cons_append, enumLoop_skip _ _ _ _ _ _ _ (hpre n (List.mem_cons_self _ _))]
    exact ih (fun m hm => hpre m (List.mem_cons_of_mem _ hm))

/-- C7. Enumeration exclusion.  When the directory opens with stream `dir` and
the callback always returns `1` (CONTINUE), the calls `SDL_SYS_FSenumerate`
makes are exactly the entries of `dir` other than `"."` and `".."`, in stream
order, each with the caller's user data, the caller's directory name and the
entry's name.  No call receives `"."` or `".."`; every other entry of the
stream, also one that starts with a dot, receives a call; and when the real
entries are `"a"` and `"b"` in some order there are exactly two calls. -/
theorem enumerate_exclusion {σ υ κ : Type} (sys : Native σ) (fullpath dirname : String)
    (cb : Callback υ κ) (userdata : υ) (w : Proc σ) (k : κ) (dir : List String)
    (hopen : (sys.opendir fullpath w.os).1 = some dir)
    (hcont : ∀ u d n k, (cb u d n k).1 = 1) :
    (SDL_SYS_FSenumerate sys fullpath dirname cb userdata w k).2.2.2 =
      (realEntries dir).map (fun n => ⟨userdata, dirname, n, 1⟩) ∧
    (∀ c ∈ (SDL_SYS_FSenumerate sys fullpath dirname cb userdata w k).2.2.2,
      c.name ≠ "." ∧ c.name ≠ "..") ∧
    (∀ n ∈ dir, n ≠ "." → n ≠ ".." →
      n ∈ (SDL_SYS_FSenumerate sys fullpath dirname cb userdata w k).2.2.2.map
        (fun c => c.name)) ∧
    ((realEntries dir).Perm ["a", "b"] →
      (SDL_SYS_FSenumerate sys fullpath dirname cb userdata w k).2.2.2.length = 2 ∧
      ((SDL_SYS_FSenumerate sys fullpath dirname cb userdata w k).2.2.2.map
        (fun c => c.name)).Perm ["a", "b"]) := by
  rw [SDL_SYS_FSenumerate_of_open sys fullpath dirname cb userdata w k dir hopen]
  obtain ⟨_, htrace⟩ := enumLoop_all_continue cb userdata dirname hcont dir k
  have hargs := enumLoop_arguments cb userdata dirname dir k
  have hnames : (enumLoop cb userdata dirname dir 1 k []).2.2.map (fun c => c.name)
      = realEntries dir := by
    rw [htrace, List.map_map]
    exact List.map_id _
  refine ⟨htrace, fun c hc => ⟨(hargs c hc).2.2.1, (hargs c hc).2.2.2.1⟩, ?_, ?_⟩
  · intro n hn h1 h2
    show n ∈ (enumLoop cb userdata dirname dir 1 k []).2.2.map (fun c => c.name)
    rw [hnames]
    unfold realEntries
    simp [hn, h1, h2]
  · intro hperm
    show (enumLoop cb userdata dirname dir 1 k []).2.2.length = 2 ∧
      ((enumLoop cb userdata dirname dir 1 k []).2.2.map (fun c => c.name)).Perm ["a", "b"]
    rw [hnames]
    refine ⟨?_, hperm⟩
    have hl := hperm.length_eq
    rw [← hnames] at hl
    simpa using hl

/-- Witness for C7: a stream that yields `"."`, `".a"`, `"b"`, `".."`, `"..."`
and `"a"`, with a callback that always returns `1`. -/
theorem enumerate_exclusion_witness :
    ((streaming [".", ".a", "b", "..", "...", "a"]).opendir "/d" 0).1
      = some [".", ".a", "b", "..", "...", "a"] ∧
    (∀ (u : Unit) (d n : String) (k : Nat), (countCallback u d n k).1 = 1) ∧
    realEntries [".", ".a", "b", "..", "...", "a"] = [".a", "b", "...", "a"] ∧
    (SDL_SYS_FSenumerate (streaming [".", ".a", "b", "..", "...", "a"]) "/d" "d"
        countCallback () ⟨0, ""⟩ 0).2.2.2 =
      (realEntries [".", ".a", "b", "..", "...", "a"]).map (fun n => ⟨(), "d", n, 1⟩) ∧
    (SDL_SYS_FSenumerate (streaming ["b", ".", "a", ".."]) "/d" "d"
        countCallback () ⟨0, ""⟩ 0).2.2.2.length = 2 :=
  ⟨rfl, fun _ _ _ _ => rfl, by decide,
   (enumerate_exclusion (streaming [".", ".a", "b", "..", "...", "a"]) "/d" "d"
      countCallback () ⟨0, ""⟩ 0 [".", ".a", "b", "..", "...", "a"] rfl
      (fun _ _ _ _ => rfl)).1,
   ((enumerate_exclusion (streaming ["b", ".", "a", ".."]) "/d" "d"
      countCallback () ⟨0, ""⟩ 0 ["b", ".", "a", ".."] rfl
      (fun _ _ _ _ => rfl)).2.2.2 (by decide)).1⟩

/-- C8. Enumeration early stop.  Let the directory open with stream `dir`.  If
the `n`-th call of the callback returns a value other than `1` (CONTINUE), then
`SDL_SYS_FSenumerate` makes exactly `n` calls, on the first `n` real entries of
the stream and on no later entry, every earlier call returned `1`, and the
value returned is exactly the value of that call.  In particular, when the call
on the first real entry returns a value other than `1` (such as `-1`,
STOP-FAILURE), that call is the only one and its value is returned, however
many entries follow. -/
theorem enumerate_early_stop {σ υ κ : Type} (sys : Native σ) (fullpath dirname : String)
    (cb : Callback υ κ) (userdata : υ) (w : Proc σ) (k : κ) (dir : List String)
    (hopen : (sys.opendir fullpath w.os).1 = some dir) :
    (∀ (n : Nat) (c : Invocation υ), 0 < n →
      (SDL_SYS_FSenumerate sys fullpath dirname cb userdata w k).2.2.2[n - 1]? = some c →
      c.result ≠ 1 →
      (SDL_SYS_FSenumerate sys fullpath dirname cb userdata w k).2.2.2.length = n ∧
      (SDL_SYS_FSenumerate sys fullpath dirname cb userdata w k).1 = c.result ∧
      (SDL_SYS_FSenumerate sys fullpath dirname cb userdata w k).2.2.2.map (fun c => c.name)
        = (realEntries dir).take n ∧
      (∀ (i : Nat) (c' : Invocation υ), i < n - 1 →
        (SDL_SYS_FSenumerate sys fullpath dirname cb userdata w k).2.2.2[i]? = some c' →
        c'.result = 1)) ∧
    (∀ (pre : List String) (e : String) (rest : List String), dir = pre ++ e :: rest →
      (∀ m ∈ pre, m = "." ∨ m = "..") → e ≠ "." → e ≠ ".." →
      (cb userdata dirname e k).1 ≠ 1 →
      (SDL_SYS_FSenumerate sys fullpath dirname cb userdata w k).1
        = (cb userdata dirname e k).1 ∧
      (SDL_SYS_FSenumerate sys fullpath dirname cb userdata w k).2.2.2
        = [invocationOf cb userdata dirname e k]) := by
  rw [SDL_SYS_FSenumerate_of_open sys fullpath dirname cb userdata w k dir hopen]
  constructor
  · intro n c hn hc hstop
    obtain ⟨m, rfl⟩ : ∃ m, n = m + 1 := ⟨n - 1, by omega⟩
    simp only [Nat.add_sub_cancel] at hc ⊢
    obtain ⟨hlen, hret⟩ := enumLoop_stop_index cb userdata dirname dir k m c hc hstop
    refine ⟨hlen, hret, ?_, ?_⟩
    · have := enumLoop_names cb userdata dirname dir k
      rw [hlen] at this
      exact this
    · intro i c' hi hc'
      by_contra hne
      have := (enumLoop_stop_index cb userdata dirname dir k i c' hc' hne).1
      omega
  · intro pre e rest hdir hpre h1 h2 hr
    subst hdir
    rw [enumLoop_first_stop cb userdata dirname pre e rest k hpre h1 h2 hr]
    exact ⟨rfl, rfl⟩

/-- Witness for C8: over the stream `"."`, `".."`, `"a"`, `"b"`, `"c"` a search
for `"b"` stops at its second call with STOP-SUCCESS (`0`); over the three
entries `"a"`, `"b"`, `"c"` a callback returning STOP-FAILURE (`-1`) is called
once and `-1` is returned. -/
theorem enumerate_early_stop_witness :
    ((streaming [".", "..", "a", "b", "c"]).opendir "/d" 0).1
      = some [".", "..", "a", "b", "c"] ∧
    (SDL_SYS_FSenumerate (streaming [".", "..", "a", "b", "c"]) "/d" "d"
        findCallback "b" ⟨0, ""⟩ 0).2.2.2[2 - 1]? = some ⟨"b", "d", "b", 0⟩ ∧
    ((SDL_SYS_FSenumerate (streaming [".", "..", "a", "b", "c"]) "/d" "d"
        findCallback "b" ⟨0, ""⟩ 0).2.2.2.length = 2 ∧
      (SDL_SYS_FSenumerate (streaming [".", "..", "a", "b", "c"]) "/d" "d"
        findCallback "b" ⟨0, ""⟩ 0).1 = 0) ∧
    ((SDL_SYS_FSenumerate (streaming ["a", "b", "c"]) "/d" "d"
        constCallback (-1) ⟨0, ""⟩ 0).1 = -1 ∧
      (SDL_SYS_FSenumerate (streaming ["a", "b", "c"]) "/d" "d"
        constCallback (-1) ⟨0, ""⟩ 0).2.2.2.length = 1 ∧
      (SDL_SYS_FSenumerate (streaming ["a", "b", "c"]) "/d" "d"
        constCallback (-1) ⟨0, ""⟩ 0).2.2.1 = 1) :=
  ⟨rfl, by decide,
   ⟨((enumerate_early_stop (streaming [".", "..", "a", "b", "c"]) "/d" "d" findCallback "b"
        ⟨0, ""⟩ 0 [".", "..", "a", "b", "c"] rfl).1 2 ⟨"b", "d", "b", 0⟩ (by decide)
        (by decide) (by decide)).1,
    ((enumerate_early_stop (streaming [".", "..", "a", "b", "c"]) "/d" "d" findCallback "b"
        ⟨0, ""⟩ 0 [".", "..", "a", "b", "c"] rfl).1 2 ⟨"b", "d", "b", 0⟩ (by decide)
        (by decide) (by decide)).2.1⟩,
   ⟨((enumerate_early_stop (streaming ["a", "b", "c"]) "/d" "d" constCallback (-1)
        ⟨0, ""⟩ 0 ["a", "b", "c"] rfl).2 [] "a" ["b", "c"] rfl (by simp) (by decide)
        (by decide) (by decide)).1,
    by decide, by decide⟩⟩

/-- C10. Result of a complete scan.  When the directory opens: if the stream
holds no entry other than `"."` and `".."` (an empty stream included), or if
every call of the callback returned `1`, `SDL_SYS_FSenumerate` returns `1`;
whenever it returns `1` the callback was called on every real entry; and when
calls were made the value returned is the value of the last call.  A negative
value is returned only when the directory cannot be opened or a call of the
callback returned that value; a directory that cannot be opened gives `-1`. -/
theorem enumerate_return_value {σ υ κ : Type} (sys : Native σ) (fullpath dirname : String)
    (cb : Callback υ κ) (userdata : υ) (w : Proc σ) (k : κ) :
    (∀ dir, (sys.opendir fullpath w.os).1 = some dir →
      (realEntries dir = [] →
        (SDL_SYS_FSenumerate sys fullpath dirname cb userdata w k).1 = 1) ∧
      ((∀ c ∈ (SDL_SYS_FSenumerate sys fullpath dirname cb userdata w k).2.2.2,
          c.result = 1) →
        (SDL_SYS_FSenumerate sys fullpath dirname cb userdata w k).1 = 1) ∧
      ((SDL_SYS_FSenumerate sys fullpath dirname cb userdata w k).1 = 1 →
        (SDL_SYS_FSenumerate sys fullpath dirname cb userdata w k).2.2.2.map
          (fun c => c.name) = realEntries dir) ∧
      (∀ c, (SDL_SYS_FSenumerate sys fullpath dirname cb userdata w k).2.2.2.getLast?
          = some c →
        (SDL_SYS_FSenumerate sys fullpath dirname cb userdata w k).1 = c.result)) ∧
    ((SDL_SYS_FSenumerate sys fullpath dirname cb userdata w k).1 < 0 →
      (sys.opendir fullpath w.os).1 = none ∨
      ∃ c ∈ (SDL_SYS_FSenumerate sys fullpath dirname cb userdata w k).2.2.2,
        c.result = (SDL_SYS_FSenumerate sys fullpath dirname cb userdata w k).1) ∧
    ((sys.opendir fullpath w.os).1 = none →
      (SDL_SYS_FSenumerate sys fullpath dirname cb userdata w k).1 = -1) := by
  have hopened : ∀ dir, (sys.opendir fullpath w.os).1 = some dir →
      ((SDL_SYS_FSenumerate sys fullpath dirname cb userdata w k).2.2.2 = [] →
        (SDL_SYS_FSenumerate sys fullpath dirname cb userdata w k).1 = 1) ∧
      (∀ c, (SDL_SYS_FSenumerate sys fullpath dirname cb userdata w k).2.2.2.getLast?
          = some c →
        (SDL_SYS_FSenumerate sys fullpath dirname cb userdata w k).1 = c.result) := by
    intro dir hopen
    rw [SDL_SYS_FSenumerate_of_open sys fullpath dirname cb userdata w k dir hopen]
    exact enumLoop_result cb userdata dirname dir k
  refine ⟨fun dir hopen => ⟨?_, ?_, ?_, (hopened dir hopen).2⟩, ?_, ?_⟩
  · intro hnone
    apply (hopened dir hopen).1
    rw [SDL_SYS_FSenumerate_of_open sys fullpath dirname cb userdata w k dir hopen]
    have hn := enumLoop_names cb userdata dirname dir k
    rw [hnone, List.take_nil] at hn
    exact List.map_eq_nil_iff.mp hn
  · intro hall
    cases hl : (SDL_SYS_FSenumerate sys fullpath dirname cb userdata w k).2.2.2.getLast? with
    | none => exact (hopened dir hopen).1 (List.getLast?_eq_none_iff.mp hl)
    | some c =>
      rw [(hopened dir hopen).2 c hl]
      exact hall c (List.mem_of_getLast?_eq_some hl)
  · rw [SDL_SYS_FSenumerate_of_open sys fullpath dirname cb userdata w k dir hopen]
    exact enumLoop_complete cb userdata dirname dir k
  · intro hneg
    cases ho : (sys.opendir fullpath w.os).1 with
    | none => exact Or.inl rfl
    | some dir =>
      right
      cases hl : (SDL_SYS_FSenumerate sys fullpath dirname cb userdata w k).2.2.2.getLast? with
      | none =>
        have h1 := (hopened dir ho).1 (List.getLast?_eq_none_iff.mp hl)
        rw [h1] at hneg
        exact absurd hneg (by decide)
      | some c =>
        exact ⟨c, List.mem_of_getLast?_eq_some hl, ((hopened dir ho).2 c hl).symm⟩
  · intro hnone
    rw [SDL_SYS_FSenumerate_of_failure sys fullpath dirname cb userdata w k hnone]

/-- Witness for C10: a stream of `"."` and `".."` only gives `1` with no call;
a full scan with a callback that always returns `1` gives `1`; a directory that
cannot be opened gives `-1`. -/
theorem enumerate_return_value_witness :
    (SDL_SYS_FSenumerate (streaming [".", ".."]) "/d" "d" constCallback 0 ⟨0, ""⟩ 0).1 = 1 ∧
    (SDL_SYS_FSenumerate (streaming []) "/d" "d" constCallback 0 ⟨0, ""⟩ 0).1 = 1 ∧
    (SDL_SYS_FSenumerate (streaming ["a", "b"]) "/d" "d" countCallback () ⟨0, ""⟩ 0).1 = 1 ∧
    (SDL_SYS_FSenumerate (failing 13 13 13 13 13) "/d" "d" countCallback () ⟨0, ""⟩ 0).1
      = -1 :=
  ⟨((enumerate_return_value (streaming [".", ".."]) "/d" "d" constCallback 0 ⟨0, ""⟩ 0).1
      [".", ".."] rfl).1 (by decide),
   ((enumerate_return_value (streaming []) "/d" "d" constCallback 0 ⟨0, ""⟩ 0).1
      [] rfl).1 (by decide),
   ((enumerate_return_value (streaming ["a", "b"]) "/d" "d" countCallback () ⟨0, ""⟩ 0).1
      ["a", "b"] rfl).2.1 (by decide),
   (enumerate_return_value (failing 13 13 13 13 13) "/d" "d" countCallback () ⟨0, ""⟩ 0).2.2
      rfl⟩

end SDLFsops
